import Mathlib

/-!
Shallow embedding of the user-account workflow of the BackEnd_Tech repository:
`src/domain/services/UserService.ts` (the Account Service) layered over
`src/infrastructure/repositories/UserRepository.ts` (the Account Store).
The store is modelled as a list of user records with a single string
identifier (the dual ObjectId/UUID fallback of the repository collapses to
one key once identifiers are plain strings).  Asynchronous calls are
sequentialised: each service operation is a function from the store state to
a result together with the new store state.
-/

namespace BackendTech

/-- JavaScript `String.prototype.toLowerCase`, restricted to the basic latin
range exactly as `Char.toLower` is: every character of the string is
lowercased independently. -/
def lowercase (s : String) : String :=
  ⟨s.data.map Char.toLower⟩

/-- JavaScript truthiness of an optional string field: `undefined` and the
empty string are falsy, every other string is truthy.  Used for the
`if (userData.x)` guards of the service. -/
def truthy : Option String → Bool
  | none => false
  | some s => s != ""

/-- A persisted user record (`src/domain/entities/User.ts`): the columns the
service reads and writes.  Timestamps are omitted; `description` and
`imageUrl` are nullable columns. -/
structure User where
  id : String
  name : String
  email : String
  password : String
  description : Option String
  imageUrl : Option String
  deriving Repr, DecidableEq

/-- The sanitized account view built by `createUser` and `authenticateUser`:
the object literal `{id, name, email, description, imageUrl, createdAt,
updatedAt}`.  It has no `password` field at all. -/
structure UserView where
  id : String
  name : String
  email : String
  description : Option String
  imageUrl : Option String
  deriving Repr, DecidableEq

/-- Projection of a stored record to the sanitized view: exactly the fields
named in the object literals of `createUser`/`authenticateUser`; the
password is dropped. -/
def toView (u : User) : UserView :=
  { id := u.id, name := u.name, email := u.email,
    description := u.description, imageUrl := u.imageUrl }

/-- The error taxonomy of the service, one constructor per distinct thrown
message: `DuplicateAccount` = "Usuário já está cadastrado",
`MissingCredentials` = "Email e senha são obrigatórios", `AccountNotFound` =
"Email não encontrado" / "Usuário não encontrado!" / "User not found",
`InvalidCredentials` = "Invalid credentials", `EmailInUse` = "Email already
in use", `DeletionFailed` = "Failed to delete user". -/
inductive Err where
  | DuplicateAccount
  | MissingCredentials
  | AccountNotFound
  | InvalidCredentials
  | EmailInUse
  | DeletionFailed
  deriving Repr, DecidableEq

/-- Modelled from the spec: the Credential Hasher (`bcryptjs`), an external
collaborator.  The salt nondeterminism is elided — the model is the
deterministic one-way tagging of the plaintext, which keeps `verify`
faithful: a hash verifies exactly against the plaintext it was built from,
and the stored credential is never equal to the plaintext. -/
def hashCred (plaintext : String) : String :=
  "$2a$08$" ++ plaintext

/-- Modelled from the spec: `bcryptjs.compare` — true exactly when the
plaintext matches the hash. -/
def compareCred (plaintext hashed : String) : Bool :=
  hashed == hashCred plaintext

/-- A signed token as produced by `jsonwebtoken.sign({id}, secret,
{expiresIn})`: the model records the three inputs of the signature. -/
structure Token where
  payloadId : String
  secret : String
  expiresIn : String
  deriving Repr, DecidableEq

/-- Modelled from the spec: the Token Issuer (`jsonwebtoken.sign`), an
external collaborator. -/
def signToken (payloadId secret expiresIn : String) : Token :=
  { payloadId := payloadId, secret := secret, expiresIn := expiresIn }

/-- The process environment slice the service reads: `process.env.JWT_SECRET`
and `process.env.JWT_EXPIRES_IN`; `none` models an unset variable. -/
structure Env where
  jwtSecret : Option String
  jwtExpiresIn : Option String
  deriving Repr, DecidableEq

/-- JavaScript `process.env.X || fallback`: an unset variable and the empty
string are both falsy and yield the fallback. -/
def orDefault (v : Option String) (fallback : String) : String :=
  match v with
  | none => fallback
  | some s => if s == "" then fallback else s

/-- `UserRepository.findById`: the first record with the given identifier. -/
def findById (st : List User) (id : String) : Option User :=
  st.find? (fun u => u.id == id)

/-- `UserRepository.findByEmail`: the repository lowercases its argument
(`email.toLowerCase()`) before the lookup. -/
def findByEmail (st : List User) (email : String) : Option User :=
  st.find? (fun u => u.email == lowercase email)

/-- `UserRepository.findByName`: exact lookup (no normalization in the
repository; the service lowercases before calling). -/
def findByName (st : List User) (name : String) : Option User :=
  st.find? (fun u => u.name == name)

/-- `UserRepository.create`: persists the record and returns it. -/
def repoCreate (st : List User) (u : User) : List User × User :=
  (st ++ [u], u)

/-- The set of user columns a `Partial<User> & {imageBase64?}` argument may
carry.  `none` models an absent (or `undefined`) property, which TypeORM's
`update` leaves untouched. -/
structure UserPatch where
  name : Option String := none
  email : Option String := none
  password : Option String := none
  description : Option String := none
  imageUrl : Option String := none
  imageBase64 : Option String := none
  deriving Repr, DecidableEq

/-- TypeORM `repository.update(criteria, patch)` on one record: supplied
columns overwrite, absent columns are untouched.  `imageBase64` is not a
column and is ignored. -/
def applyPatch (u : User) (p : UserPatch) : User :=
  { id := u.id,
    name := p.name.getD u.name,
    email := p.email.getD u.email,
    password := p.password.getD u.password,
    description := match p.description with
      | none => u.description
      | some d => some d,
    imageUrl := match p.imageUrl with
      | none => u.imageUrl
      | some s => some s }

/-- `UserRepository.update`: update the matching record, then re-read it;
throws "User not found" when the re-read misses. -/
def repoUpdate (st : List User) (id : String) (p : UserPatch) :
    Except Err User × List User :=
  let st' := st.map (fun u => if u.id == id then applyPatch u p else u)
  match findById st' id with
  | some u => (.ok u, st')
  | none => (.error .AccountNotFound, st')

/-- `UserRepository.delete`: removes the records with the given identifier;
when the store reports that nothing was removed (`affected === 0` on both
the native-id and surrogate-id attempts) it throws "Failed to delete
user". -/
def repoDelete (st : List User) (id : String) : Except Err Unit × List User :=
  let st' := st.filter (fun u => u.id != id)
  if st'.length == st.length then (.error .DeletionFailed, st)
  else (.ok (), st')

/-- The argument object of `UserService.createUser`. -/
structure CreateInput where
  name : String
  email : String
  password : String
  description : Option String := none
  imageBase64 : Option String := none
  deriving Repr, DecidableEq

/-- `UserService.createUser`: lowercase name and email, reject when an
account with the same (normalized) email exists, hash the password, persist,
and return the sanitized view of the created record.  `newId` stands for the
identifier the store assigns. -/
def createUser (st : List User) (newId : String) (i : CreateInput) :
    Except Err UserView × List User :=
  let nname := lowercase i.name
  let nemail := lowercase i.email
  match findByEmail st nemail with
  | some _ => (.error .DuplicateAccount, st)
  | none =>
    let hashed := hashCred i.password
    let (st', created) := repoCreate st
      { id := newId, name := nname, email := nemail, password := hashed,
        description := i.description, imageUrl := i.imageBase64 }
    (.ok (toView created), st')

/-- `UserService.authenticateUser`: reject empty credentials, look the
account up by the lowercased email, verify the password against the stored
hash, then sign a token with `JWT_SECRET || 'default'` and
`JWT_EXPIRES_IN || '1d'` and return the sanitized view with the token. -/
def authenticateUser (env : Env) (st : List User) (email password : String) :
    Except Err (UserView × Token) :=
  if email == "" || password == "" then .error .MissingCredentials
  else
    let normalizedEmail := lowercase email
    match findByEmail st normalizedEmail with
    | none => .error .AccountNotFound
    | some user =>
      if compareCred password user.password then
        let secret := orDefault env.jwtSecret "default"
        let expiresIn := orDefault env.jwtExpiresIn "1d"
        .ok (toView user, signToken user.id secret expiresIn)
      else .error .InvalidCredentials

/-- Lines 160-176 of `UserService.updateUser`: lowercase the name when
truthy; when `imageBase64` is truthy copy it into `imageUrl`, otherwise
overwrite `imageUrl` with the currently stored one (a second `findById`);
finally drop `imageBase64` from the object. -/
def resolvePatch (st : List User) (id : String) (ud : UserPatch) : UserPatch :=
  let ud1 := match ud.name with
    | some n => if n != "" then { ud with name := some (lowercase n) } else ud
    | none => ud
  let ud2 :=
    if truthy ud1.imageBase64 then { ud1 with imageUrl := ud1.imageBase64 }
    else match findById st id with
      | some existing => { ud1 with imageUrl := existing.imageUrl }
      | none => ud1
  { ud2 with imageBase64 := none }

/-- `UserService.updateUser`: throws "Usuário não encontrado!" when the
identifier is unknown, otherwise resolves the patch (name lowercasing and
image preservation) and delegates to the repository update.  Note: the
method neither hashes a supplied password nor checks a supplied email
against other accounts. -/
def updateUser (st : List User) (id : String) (ud : UserPatch) :
    Except Err User × List User :=
  match findById st id with
  | none => (.error .AccountNotFound, st)
  | some _ => repoUpdate st id (resolvePatch st id ud)

/-- `UserService.deleteUser`: throws "usuário não encontrado!" when the
identifier is unknown, otherwise delegates to the repository delete. -/
def deleteUser (st : List User) (id : String) : Except Err Unit × List User :=
  match findById st id with
  | none => (.error .AccountNotFound, st)
  | some _ => repoDelete st id

/-- Whether a service result is a success. -/
def exOk : Except Err α → Bool
  | .ok _ => true
  | .error _ => false

/-! Basic lemmas about normalization and the store. -/

lemma char_toLower_idem (c : Char) : c.toLower.toLower = c.toLower := by
  simp only [Char.toLower]
  by_cases h : c.toNat ≥ 65 ∧ c.toNat ≤ 90
  · rw [if_pos h]
    have hv : Nat.isValidChar (c.toNat + 32) := Or.inl (by omega)
    have ht : (Char.ofNat (c.toNat + 32)).toNat = c.toNat + 32 := by
      unfold Char.ofNat
      rw [dif_pos hv]
      rfl
    rw [ht, if_neg (by omega)]
  · rw [if_neg h, if_neg h]

lemma lowercase_idem (s : String) : lowercase (lowercase s) = lowercase s := by
  show String.mk ((s.data.map Char.toLower).map Char.toLower)
      = String.mk (s.data.map Char.toLower)
  rw [List.map_map]
  exact congrArg String.mk (List.map_congr_left fun a _ => char_toLower_idem a)

lemma lowercase_empty : lowercase "" = "" := rfl

/-- The service lowercases before calling the repository, which lowercases
again; the composition equals a single repository lookup. -/
lemma findByEmail_lowercase (st : List User) (e : String) :
    findByEmail st (lowercase e) = findByEmail st e := by
  simp [findByEmail, lowercase_idem]

lemma applyPatch_id (u : User) (p : UserPatch) : (applyPatch u p).id = u.id := rfl

/-- Updating the store rewrites exactly the record that `findById` sees. -/
lemma find_map_patch (st : List User) (id : String) (p : UserPatch) (u : User)
    (h : st.find? (fun v => v.id == id) = some u) :
    (st.map (fun v => if v.id == id then applyPatch v p else v)).find?
      (fun v => v.id == id) = some (applyPatch u p) := by
  induction st with
  | nil => simp at h
  | cons a t ih =>
    cases ha : (a.id == id) with
    | true =>
      rw [List.find?_cons, ha] at h
      have h2 : some a = some u := h
      injection h2 with h3
      subst h3
      rw [List.map_cons, if_pos ha, List.find?_cons]
      have hb : ((applyPatch a p).id == id) = true := ha
      rw [hb]
    | false =>
      rw [List.find?_cons, ha] at h
      have h2 : List.find? (fun v => v.id == id) t = some u := h
      rw [List.map_cons, if_neg (show ¬((a.id == id) = true) by simp [ha]),
        List.find?_cons, ha]
      exact ih h2

/-- A found record survives as the patched record through `repoUpdate`. -/
lemma repoUpdate_found (st : List User) (id : String) (p : UserPatch) (u : User)
    (h : findById st id = some u) :
    repoUpdate st id p =
      (.ok (applyPatch u p),
       st.map (fun v => if v.id == id then applyPatch v p else v)) := by
  have hf := find_map_patch st id p u h
  simp only [repoUpdate, findById]
  simp only [findById] at hf
  rw [hf]

/-- After filtering an identifier out, `findById` misses. -/
lemma find_filter_ne (st : List User) (id : String) :
    (st.filter (fun u => u.id != id)).find? (fun u => u.id == id) = none := by
  rw [List.find?_eq_none]
  intro x hx
  have := List.of_mem_filter hx
  simpa using this

/-! Claim theorems. -/

/-- C3: whenever the store already contains an account whose stored email
equals the lowercased form of the submitted email, `createUser` fails with
`DuplicateAccount` and returns the store unchanged — no record is added,
modified, or removed. -/
theorem createUser_duplicate_email (st : List User) (newId : String) (i : CreateInput)
    (h : ∃ u ∈ st, u.email = lowercase i.email) :
    createUser st newId i = (.error .DuplicateAccount, st) := by
  obtain ⟨u, hu, he⟩ := h
  have hsome : (findByEmail st (lowercase i.email)).isSome := by
    rw [findByEmail_lowercase, findByEmail, List.find?_isSome]
    exact ⟨u, hu, by simp [he]⟩
  obtain ⟨v, hv⟩ := Option.isSome_iff_exists.mp hsome
  simp only [createUser]
  rw [hv]

/-- Witness for C3 at a concrete store and input. -/
theorem createUser_duplicate_email_witness :
    createUser [{ id := "1", name := "ana", email := "ana@ex.com",
                  password := hashCred "pw", description := none, imageUrl := none }]
      "2" { name := "Ana", email := "Ana@Ex.COM", password := "pw2" }
    = (.error .DuplicateAccount,
       [{ id := "1", name := "ana", email := "ana@ex.com",
          password := hashCred "pw", description := none, imageUrl := none }]) :=
  createUser_duplicate_email _ _ _ (by decide)

/-- C4: every successful `createUser` call persists, and returns to the
caller, the lowercased forms of the submitted name and email. -/
theorem createUser_normalizes (st : List User) (newId : String) (i : CreateInput)
    (v : UserView) (st' : List User)
    (h : createUser st newId i = (.ok v, st')) :
    v.name = lowercase i.name ∧ v.email = lowercase i.email ∧
      st' = st ++ [{ id := newId, name := lowercase i.name,
                     email := lowercase i.email, password := hashCred i.password,
                     description := i.description, imageUrl := i.imageBase64 }] := by
  cases hf : findByEmail st (lowercase i.email) with
  | some u =>
    simp only [createUser] at h
    rw [hf] at h
    exact absurd (congrArg (fun r => exOk r.1) h) (by simp [exOk])
  | none =>
    simp only [createUser, repoCreate] at h
    rw [hf] at h
    have h1 : Except.ok (α := UserView) (ε := Err)
        (toView { id := newId, name := lowercase i.name, email := lowercase i.email,
                  password := hashCred i.password, description := i.description,
                  imageUrl := i.imageBase64 }) = .ok v := congrArg Prod.fst h
    have h2 := congrArg Prod.snd h
    injection h1 with h1
    exact ⟨h1 ▸ rfl, h1 ▸ rfl, h2.symm⟩

/-- Witness for C4 at a concrete input. -/
theorem createUser_normalizes_witness :
    ({ id := "1", name := "ana", email := "ana@ex.com", description := none,
       imageUrl := none } : UserView).name = lowercase "Ana" ∧
    ({ id := "1", name := "ana", email := "ana@ex.com", description := none,
       imageUrl := none } : UserView).email = lowercase "Ana@Ex.com" ∧
    [{ id := "1", name := "ana", email := "ana@ex.com", password := hashCred "pw",
       description := none, imageUrl := none }]
      = ([] : List User) ++
        [{ id := "1", name := lowercase "Ana", email := lowercase "Ana@Ex.com",
           password := hashCred "pw", description := none, imageUrl := none }] :=
  createUser_normalizes [] "1"
    { name := "Ana", email := "Ana@Ex.com", password := "pw" } _ _ rfl

/-- C9: every successful `createUser` call returns the sanitized view of the
persisted record: the view type has no password field at all, while the
record appended to the store carries the Credential Hasher's hash. -/
theorem createUser_view_has_no_password (st : List User) (newId : String)
    (i : CreateInput) (v : UserView) (st' : List User)
    (h : createUser st newId i = (.ok v, st')) :
    ∃ u : User, st' = st ++ [u] ∧ u.password = hashCred i.password ∧ v = toView u := by
  have := createUser_normalizes st newId i v st' h
  refine ⟨_, this.2.2, rfl, ?_⟩
  cases hf : findByEmail st (lowercase i.email) with
  | some u =>
    simp only [createUser] at h
    rw [hf] at h
    exact absurd (congrArg (fun r => exOk r.1) h) (by simp [exOk])
  | none =>
    simp only [createUser, repoCreate] at h
    rw [hf] at h
    have h1 := congrArg Prod.fst h
    injection h1 with h1
    exact h1.symm

/-- Witness for C9 at a concrete input. -/
theorem createUser_view_has_no_password_witness :
    ∃ u : User,
      [{ id := "1", name := "ana", email := "ana@ex.com", password := hashCred "pw",
         description := none, imageUrl := none }] = ([] : List User) ++ [u]
      ∧ u.password = hashCred "pw"
      ∧ ({ id := "1", name := "ana", email := "ana@ex.com", description := none,
           imageUrl := none } : UserView) = toView u :=
  createUser_view_has_no_password [] "1"
    { name := "Ana", email := "Ana@Ex.com", password := "pw" } _ _ rfl

/-- With nonempty credentials, authentication reduces to the lookup by the
(singly) lowercased email followed by password verification. -/
lemma authenticateUser_eq (env : Env) (st : List User) (e p : String)
    (he : ¬(e = "")) (hp : ¬(p = "")) :
    authenticateUser env st e p =
      match findByEmail st e with
      | none => .error .AccountNotFound
      | some user =>
        if compareCred p user.password then
          .ok (toView user, signToken user.id (orDefault env.jwtSecret "default")
            (orDefault env.jwtExpiresIn "1d"))
        else .error .InvalidCredentials := by
  simp only [authenticateUser]
  rw [if_neg (by simp [he, hp]), findByEmail_lowercase]

/-- C5: `authenticateUser` fails with `MissingCredentials` exactly when the
email or the password is empty; otherwise it fails with `AccountNotFound`
when no stored account matches the lowercased email; otherwise it fails with
`InvalidCredentials` when the password does not verify against the stored
hash (no token is returned, as errors carry none); and otherwise it returns
the signed token together with the sanitized view, whose type has no
password field. -/
theorem authenticateUser_spec (env : Env) (st : List User) (e p : String) :
    (authenticateUser env st e p = .error .MissingCredentials ↔ (e = "" ∨ p = ""))
    ∧ (e ≠ "" → p ≠ "" → findByEmail st e = none →
        authenticateUser env st e p = .error .AccountNotFound)
    ∧ (∀ u, e ≠ "" → p ≠ "" → findByEmail st e = some u →
        compareCred p u.password = false →
        authenticateUser env st e p = .error .InvalidCredentials)
    ∧ (∀ u, e ≠ "" → p ≠ "" → findByEmail st e = some u →
        compareCred p u.password = true →
        authenticateUser env st e p =
          .ok (toView u, signToken u.id (orDefault env.jwtSecret "default")
            (orDefault env.jwtExpiresIn "1d"))) := by
  refine ⟨⟨?_, ?_⟩, ?_, ?_, ?_⟩
  · intro h
    by_contra hne
    push_neg at hne
    obtain ⟨he, hp⟩ := hne
    rw [authenticateUser_eq env st e p he hp] at h
    cases hf : findByEmail st e with
    | none => rw [hf] at h; exact absurd h (by simp)
    | some u =>
      rw [hf] at h
      by_cases hc : compareCred p u.password = true <;> simp [hc] at h
  · intro h
    have hc : (e == "" || p == "") = true := by
      rcases h with h | h <;> simp [h]
    simp [authenticateUser, hc]
  · intro he hp hf
    rw [authenticateUser_eq env st e p he hp, hf]
  · intro u he hp hf hc
    rw [authenticateUser_eq env st e p he hp, hf]
    simp [hc]
  · intro u he hp hf hc
    rw [authenticateUser_eq env st e p he hp, hf]
    simp [hc]

/-- Witness for C5: a concrete successful authentication. -/
theorem authenticateUser_spec_witness :
    authenticateUser { jwtSecret := some "s", jwtExpiresIn := some "2h" }
      [{ id := "1", name := "ana", email := "ana@ex.com", password := hashCred "pw",
         description := none, imageUrl := none }] "ana@ex.com" "pw"
    = .ok ({ id := "1", name := "ana", email := "ana@ex.com", description := none,
             imageUrl := none },
           { payloadId := "1", secret := "s", expiresIn := "2h" }) :=
  (authenticateUser_spec { jwtSecret := some "s", jwtExpiresIn := some "2h" }
      [{ id := "1", name := "ana", email := "ana@ex.com", password := hashCred "pw",
         description := none, imageUrl := none }] "ana@ex.com" "pw").2.2.2
    { id := "1", name := "ana", email := "ana@ex.com", password := hashCred "pw",
      description := none, imageUrl := none }
    (by decide) (by decide) (by decide) (by decide)

/-- C10: whether authentication succeeds does not depend on the environment,
and a successful call under an environment with no `JWT_SECRET` and no
`JWT_EXPIRES_IN` signs the token with the fallback secret "default" and the
fallback expiry "1d". -/
theorem authenticateUser_default_config (env : Env) (st : List User) (e p : String) :
    (∀ env' : Env, exOk (authenticateUser env' st e p)
        = exOk (authenticateUser env st e p))
    ∧ (∀ v t, authenticateUser env st e p = .ok (v, t) →
        (env.jwtSecret = none → t.secret = "default")
        ∧ (env.jwtExpiresIn = none → t.expiresIn = "1d")) := by
  constructor
  · intro env'
    by_cases hc : (e == "" || p == "") = true
    · simp [authenticateUser, hc]
    · simp only [authenticateUser, if_neg hc]
      cases hfind : findByEmail st (lowercase e) with
      | none => rfl
      | some u =>
        cases hcc : compareCred p u.password with
        | true => simp [hcc, exOk]
        | false => simp [hcc, exOk]
  · intro v t h
    by_cases hc : (e == "" || p == "") = true
    · simp [authenticateUser, hc] at h
    · simp only [authenticateUser, if_neg hc] at h
      cases hfind : findByEmail st (lowercase e) with
      | none => rw [hfind] at h; exact absurd h (by simp)
      | some u =>
        rw [hfind] at h
        by_cases hcc : compareCred p u.password = true
        · simp only [hcc] at h
          simp at h
          obtain ⟨-, ht⟩ := h
          subst ht
          constructor
          · intro hs
            rw [show Token.secret (signToken u.id (orDefault env.jwtSecret "default")
              (orDefault env.jwtExpiresIn "1d")) = orDefault env.jwtSecret "default"
              from rfl, hs]
            rfl
          · intro hx
            rw [show Token.expiresIn (signToken u.id (orDefault env.jwtSecret "default")
              (orDefault env.jwtExpiresIn "1d")) = orDefault env.jwtExpiresIn "1d"
              from rfl, hx]
            rfl
        · simp [hcc] at h

/-- Witness for C10 at a concrete store with an empty environment. -/
theorem authenticateUser_default_config_witness :
    ({ payloadId := "1", secret := "default", expiresIn := "1d" } : Token).secret
      = "default" ∧
    ({ payloadId := "1", secret := "default", expiresIn := "1d" } : Token).expiresIn
      = "1d" :=
  have h := (authenticateUser_default_config
    { jwtSecret := none, jwtExpiresIn := none }
    [{ id := "1", name := "ana", email := "ana@ex.com", password := hashCred "pw",
       description := none, imageUrl := none }] "ana@ex.com" "pw").2
    { id := "1", name := "ana", email := "ana@ex.com", description := none,
      imageUrl := none }
    { payloadId := "1", secret := "default", expiresIn := "1d" } rfl
  ⟨h.1 rfl, h.2 rfl⟩

/-- When the identifier resolves, `updateUser` applies the resolved patch to
the found record. -/
lemma updateUser_found (st : List User) (id : String) (ud : UserPatch) (u : User)
    (h : findById st id = some u) :
    updateUser st id ud =
      (.ok (applyPatch u (resolvePatch st id ud)),
       st.map (fun v => if v.id == id then applyPatch v (resolvePatch st id ud)
         else v)) := by
  simp only [updateUser, h]
  exact repoUpdate_found st id _ u h

/-- With no truthy image payload, the resolved patch copies the stored image
reference and leaves email, password and description as submitted. -/
lemma resolvePatch_imageAbsent (st : List User) (id : String) (ud : UserPatch)
    (u : User) (h : findById st id = some u)
    (hi : truthy ud.imageBase64 = false) :
    (resolvePatch st id ud).imageUrl = u.imageUrl ∧
    (resolvePatch st id ud).email = ud.email ∧
    (resolvePatch st id ud).password = ud.password ∧
    (resolvePatch st id ud).description = ud.description := by
  unfold resolvePatch
  cases hn : ud.name with
  | none => simp [hn, hi, h]
  | some m => by_cases hm : (m != "") = true <;> simp [hn, hm, hi, h]

/-- The name carried by the resolved patch: lowercased when nonempty. -/
lemma resolvePatch_name_some (st : List User) (id : String) (ud : UserPatch)
    (m : String) (hn : ud.name = some m) :
    (resolvePatch st id ud).name
      = if m != "" then some (lowercase m) else some m := by
  unfold resolvePatch
  by_cases hm : (m != "") = true
  · by_cases hi : truthy ud.imageBase64 = true
    · simp [hn, hm, hi]
    · cases hf : findById st id <;> simp [hn, hm, hi, hf]
  · by_cases hi : truthy ud.imageBase64 = true
    · simp [hn, hm, hi]
    · cases hf : findById st id <;> simp [hn, hm, hi, hf]

/-- C6: `deleteUser` fails with `AccountNotFound` when the identifier is
unknown; a successful deletion removes the record, so a subsequent
`findById` misses and a second `deleteUser` fails with `AccountNotFound`;
and when the store removes no record the repository delete fails with
`DeletionFailed`. -/
theorem deleteUser_spec (st : List User) (id : String) :
    (findById st id = none → deleteUser st id = (.error .AccountNotFound, st))
    ∧ (∀ st', deleteUser st id = (.ok (), st') →
        findById st' id = none ∧ deleteUser st' id = (.error .AccountNotFound, st'))
    ∧ ((∀ u ∈ st, u.id ≠ id) → repoDelete st id = (.error .DeletionFailed, st)) := by
  refine ⟨?_, ?_, ?_⟩
  · intro h
    simp [deleteUser, h]
  · intro st' h
    cases hf : findById st id with
    | none => simp [deleteUser, hf] at h
    | some u =>
      simp only [deleteUser, hf] at h
      unfold repoDelete at h
      by_cases hl : ((st.filter (fun v => v.id != id)).length == st.length) = true
      · rw [if_pos hl] at h
        exact absurd (congrArg (fun r => exOk r.1) h) (by simp [exOk])
      · rw [if_neg hl] at h
        have hst : st.filter (fun v => v.id != id) = st' := congrArg Prod.snd h
        subst hst
        have hnone : findById (st.filter (fun v => v.id != id)) id = none :=
          find_filter_ne st id
        exact ⟨hnone, by simp [deleteUser, hnone]⟩
  · intro h
    have hself : st.filter (fun v => v.id != id) = st :=
      List.filter_eq_self.mpr (fun v hv => by simpa using h v hv)
    simp [repoDelete, hself]

/-- Witness for C6: deleting the only record, then again. -/
theorem deleteUser_spec_witness :
    findById ([] : List User) "1" = none ∧
    deleteUser ([] : List User) "1" = (.error .AccountNotFound, ([] : List User)) :=
  (deleteUser_spec
    [{ id := "1", name := "ana", email := "a@x.com",
       password := hashCred "pw", description := none, imageUrl := none }]
    "1").2.1 [] rfl

/-- C7: an update whose patch carries only a name leaves email, password
hash, image and description of the account unchanged; and any update with no
truthy image payload preserves the stored image reference. -/
theorem updateUser_name_only_frame (st : List User) (id n : String) (u : User)
    (h : findById st id = some u) :
    (∃ u' st', updateUser st id { name := some n } = (.ok u', st')
      ∧ u'.email = u.email ∧ u'.password = u.password
      ∧ u'.imageUrl = u.imageUrl ∧ u'.description = u.description)
    ∧ (∀ (ud : UserPatch) (u'' : User) (st'' : List User),
        truthy ud.imageBase64 = false →
        updateUser st id ud = (.ok u'', st'') → u''.imageUrl = u.imageUrl) := by
  constructor
  · obtain ⟨hiu, hem, hpw, hds⟩ :=
      resolvePatch_imageAbsent st id { name := some n } u h rfl
    refine ⟨applyPatch u (resolvePatch st id { name := some n }), _,
      updateUser_found st id { name := some n } u h, ?_, ?_, ?_, ?_⟩
    · simp [applyPatch, hem]
    · simp [applyPatch, hpw]
    · simp only [applyPatch, hiu]
      cases hx : u.imageUrl <;> simp [hx]
    · simp [applyPatch, hds]
  · intro ud u'' st'' hib hupd
    rw [updateUser_found st id ud u h] at hupd
    have h1 := congrArg Prod.fst hupd
    injection h1 with h1
    obtain ⟨hiu2, -, -, -⟩ := resolvePatch_imageAbsent st id ud u h hib
    rw [← h1]
    simp only [applyPatch, hiu2]
    cases hx : u.imageUrl <;> simp [hx]

/-- Witness for C7: a name-only update on an account with an image. -/
theorem updateUser_name_only_frame_witness :
    ∃ u' st',
      updateUser
        [{ id := "1", name := "ana", email := "a@x.com",
           password := hashCred "pw", description := none, imageUrl := some "img" }]
        "1" { name := some "bea" } = (.ok u', st')
      ∧ u'.email = "a@x.com" ∧ u'.password = hashCred "pw"
      ∧ u'.imageUrl = some "img" ∧ u'.description = none :=
  (updateUser_name_only_frame
    [{ id := "1", name := "ana", email := "a@x.com", password := hashCred "pw",
       description := none, imageUrl := some "img" }] "1" "bea"
    { id := "1", name := "ana", email := "a@x.com", password := hashCred "pw",
      description := none, imageUrl := some "img" } rfl).1

/-- C8: an update whose patch carries a name persists the lowercased form of
that name. -/
theorem updateUser_lowercases_name (st : List User) (id n : String)
    (ud : UserPatch) (u' : User) (st' : List User) (hn : ud.name = some n)
    (h : updateUser st id ud = (.ok u', st')) :
    u'.name = lowercase n := by
  cases hf : findById st id with
  | none => simp [updateUser, hf] at h
  | some u =>
    rw [updateUser_found st id ud u hf] at h
    have h1 := congrArg Prod.fst h
    injection h1 with h1
    rw [← h1]
    have hrn := resolvePatch_name_some st id ud n hn
    by_cases hm : (n != "") = true
    · rw [if_pos hm] at hrn
      simp [applyPatch, hrn]
    · rw [if_neg hm] at hrn
      have hne : n = "" := by simpa using hm
      subst hne
      simp [applyPatch, hrn, lowercase_empty]

/-- Witness for C8: updating the name to a mixed-case string. -/
theorem updateUser_lowercases_name_witness :
    ({ id := "1", name := "new", email := "a@x.com", password := hashCred "pw",
       description := none, imageUrl := none } : User).name = lowercase "NeW" :=
  updateUser_lowercases_name
    [{ id := "1", name := "ana", email := "a@x.com", password := hashCred "pw",
       description := none, imageUrl := none }] "1" "NeW" { name := some "NeW" }
    { id := "1", name := "new", email := "a@x.com", password := hashCred "pw",
      description := none, imageUrl := none }
    [{ id := "1", name := "new", email := "a@x.com", password := hashCred "pw",
       description := none, imageUrl := none }] rfl rfl

/-- C1 (code bug): evaluating `updateUser` at a patch carrying a password
shows the persisted credential is the plaintext itself, not the Credential
Hasher's hash — the service's `updateUser` never hashes. -/
theorem updateUser_password_plaintext :
    updateUser
      [{ id := "1", name := "ana", email := "a@x.com",
         password := hashCred "old", description := none, imageUrl := none }]
      "1" { password := some "newPassword123" }
    = (.ok { id := "1", name := "ana", email := "a@x.com",
             password := "newPassword123", description := none, imageUrl := none },
       [{ id := "1", name := "ana", email := "a@x.com",
          password := "newPassword123", description := none, imageUrl := none }])
    ∧ "newPassword123" ≠ hashCred "newPassword123" :=
  ⟨rfl, by decide⟩

/-- C2 (code bug): evaluating `updateUser` at a patch whose email equals the
email of another stored account shows the update succeeds and persists the
duplicate email — the service's `updateUser` performs no email-in-use
check. -/
theorem updateUser_email_conflict_ignored :
    updateUser
      [{ id := "1", name := "ana", email := "ana@x.com",
         password := hashCred "p1", description := none, imageUrl := none },
       { id := "2", name := "bob", email := "bob@x.com",
         password := hashCred "p2", description := none, imageUrl := none }]
      "1" { email := some "bob@x.com" }
    = (.ok { id := "1", name := "ana", email := "bob@x.com",
             password := hashCred "p1", description := none, imageUrl := none },
       [{ id := "1", name := "ana", email := "bob@x.com",
          password := hashCred "p1", description := none, imageUrl := none },
        { id := "2", name := "bob", email := "bob@x.com",
          password := hashCred "p2", description := none, imageUrl := none }]) :=
  rfl

end BackendTech
